import Mathlib

/-!
Shallow embedding of the LEvent library (src/LEvent.h, src/SimpleDelegate.h,
the Manager in src/README.md, src/unnamed/part_000 = Singleton.h).

Modelling choices:
* A delegate (`SimpleDelegateFactory::Delegate`) is identified by the
  identity of its `shared_ptr` (field `ptrId`) and carries its `Priority`.
  Invocation of a delegate on the (fixed) trigger arguments is modelled by a
  function `invoke : Delegate → ρ` supplied at the trigger call site, where
  `ρ` stands for the event's `ReturnType`.
* Factory equality (`*Data == *DelegatePtr`) is a parameter
  `eq : Delegate → Delegate → Bool`; the concrete factory in the repository,
  `SimpleDelegateFactory`, always answers `false` (`simpleDelegateEq`).
* `std::vector<std::shared_ptr<DelegateType>> Delegates` is a
  `List Delegate`; `mutable bool bIsBroadcasting` is a `Bool` field.
* The Manager's `std::any Events[Count]` array is a map `Nat → Option Slot`;
  a `Slot` stores the runtime type tag of the event
  (`typeid(std::shared_ptr<LEvent<Factory, ReturnType, Args...>>)`,
  modelled as a `Sig` value identifying `(ReturnType, Args...)`) together
  with the event state.
-/

namespace levent

/-- `enum class EError` from src/LEvent.h. -/
inductive EError where
  | OK
  | EventAlreadyDefined
  | FailedToMatchEventType
  | ModifyingCallbackListDuringBroadcast
  | CallbackAlreadyAdded
  | EventsBlocked
deriving DecidableEq, Repr

/-- One delegate produced by the delegate factory: the identity of the
`shared_ptr` holding it, and its `Priority` (src/SimpleDelegate.h). -/
structure Delegate where
  ptrId : Nat
  Priority : Int
deriving DecidableEq, Repr

/-- The factory's value-equality on delegates (`Delegate::operator==`). -/
abbrev DelegateEq := Delegate → Delegate → Bool

/-- `SimpleDelegateFactory::Delegate::operator==` from src/SimpleDelegate.h:
std::function cannot be compared, so it always reports "different". -/
def simpleDelegateEq : DelegateEq := fun _ _ => false

/-- State of one `LEvent` (src/LEvent.h): the ordered delegate sequence and
the broadcast guard flag. -/
structure LEvent where
  Delegates : List Delegate
  bIsBroadcasting : Bool
deriving DecidableEq, Repr

/-- `LEvent() = default`: empty sequence, not broadcasting. -/
def LEvent.new : LEvent := { Delegates := [], bIsBroadcasting := false }

/-- `LEvent::IsBroadcasting`. -/
def LEvent.IsBroadcasting (ev : LEvent) : Bool := ev.bIsBroadcasting

/-- The insertion step of `LEvent::InsertDelegate`: insert the new delegate
at the position found by
`find_if(Delegates, [] (Data) { return Data->Priority < DelegatePtr->Priority; })`,
i.e. before the first entry of strictly lower priority. -/
def insertByPriority (d : Delegate) : List Delegate → List Delegate
  | [] => [d]
  | x :: xs =>
    if x.Priority < d.Priority then d :: x :: xs else x :: insertByPriority d xs

/-- `LEvent::InsertDelegate` (src/LEvent.h lines 246-268): when duplicates
are disallowed, scan for an entry equal under factory equality and refuse;
otherwise insert maintaining priority order. -/
def LEvent.InsertDelegate (ev : LEvent) (eq : DelegateEq) (d : Delegate)
    (AllowDuplicates : Bool) : Bool × LEvent :=
  if !AllowDuplicates && ev.Delegates.any (fun data => eq data d) then
    (false, ev)
  else
    (true, { ev with Delegates := insertByPriority d ev.Delegates })

/-- `LEvent::AddListener` (both overloads, src/LEvent.h lines 136-159): null
while broadcasting, otherwise build the delegate (here: `d`, the factory
output) and insert it; return the stored handle on success, null otherwise. -/
def LEvent.AddListener (ev : LEvent) (eq : DelegateEq) (d : Delegate)
    (AllowDuplicates : Bool) : Option Delegate × LEvent :=
  if ev.bIsBroadcasting then (none, ev)
  else
    let r := ev.InsertDelegate eq d AllowDuplicates
    (if r.1 then some d else none, r.2)

/-- Erase the first entry whose `shared_ptr` identity matches
(`find_if(Delegates, [] (Data) { return Data == DelegatePtr; })` followed by
`erase`). -/
def eraseFirstById (i : Nat) : List Delegate → List Delegate
  | [] => []
  | d :: ds => if d.ptrId == i then ds else d :: eraseFirstById i ds

/-- State of a `Connection` (src/LEvent.h): whether the `shared_ptr<ILEvent>`
is non-null, the identity of the referenced delegate (the `std::any`
payload), the `bActive` flag and the error code. -/
structure Connection where
  hasEvent : Bool
  delegateId : Nat
  bActive : Bool
  Error : EError
deriving DecidableEq, Repr

/-- `Connection(EError)`: no event reference, `bActive` keeps its default
`true`, error stored. -/
def Connection.fromError (e : EError) : Connection :=
  { hasEvent := false, delegateId := 0, bActive := true, Error := e }

/-- `Connection(shared_ptr<ILEvent>, shared_ptr<T>)`: event and delegate
recorded, defaults `bActive = true`, `Error = OK`. -/
def Connection.make (delegateId : Nat) : Connection :=
  { hasEvent := true, delegateId := delegateId, bActive := true,
    Error := EError.OK }

/-- The move constructor / move assignment of `Connection` (src/LEvent.h
lines 51-66): the destination takes the event and delegate references and
copies `bActive` and `Error`; the moved-from source's `shared_ptr<ILEvent>`
becomes null while its `bActive` and `Error` are NOT reset.
Returns (destination, moved-from source). -/
def Connection.moveFrom (other : Connection) : Connection × Connection :=
  ({ hasEvent := other.hasEvent, delegateId := other.delegateId,
     bActive := other.bActive, Error := other.Error },
   { other with hasEvent := false })

/-- `explicit operator bool()`: `static_cast<bool>(Event) && bActive`. -/
def Connection.toBool (c : Connection) : Bool := c.hasEvent && c.bActive

/-- `Connection::IsActive`: `bActive && Error == EError::OK`. -/
def Connection.IsActive (c : Connection) : Bool :=
  c.bActive && c.Error == EError.OK

/-- `Connection::GetError`. -/
def Connection.GetError (c : Connection) : EError := c.Error

/-- `LEvent::RemoveListener(Connection&)` (src/LEvent.h lines 162-175):
silently returns while broadcasting, otherwise erases the first identity
match (absence is a silent no-op). -/
def LEvent.RemoveListenerConn (ev : LEvent) (c : Connection) : LEvent :=
  if ev.bIsBroadcasting then ev
  else { ev with Delegates := eraseFirstById c.delegateId ev.Delegates }

/-- `LEvent::RemoveListener(shared_ptr<DelegateType>)` (src/LEvent.h lines
177-191): error while broadcasting, otherwise erases the first identity
match and reports OK (also when nothing matched). -/
def LEvent.RemoveListenerPtr (ev : LEvent) (ptrId : Nat) : EError × LEvent :=
  if ev.bIsBroadcasting then (EError.ModifyingCallbackListDuringBroadcast, ev)
  else (EError.OK, { ev with Delegates := eraseFirstById ptrId ev.Delegates })

/-- `Connection::Disconnect` (src/LEvent.h lines 69-75): if a live event
reference is held and the connection is active, ask the event to remove the
delegate; then unconditionally clear `bActive`. The event the connection
references is threaded explicitly; returns (updated connection, updated
event). -/
def Connection.Disconnect (c : Connection) (ev : LEvent) :
    Connection × LEvent :=
  if c.hasEvent && c.bActive then
    ({ c with bActive := false }, ev.RemoveListenerConn c)
  else
    ({ c with bActive := false }, ev)

/-- The event state during the body of `Trigger`/`TriggerComplex`:
`bIsBroadcasting = true` has been set, the sequence is untouched. -/
def LEvent.TriggerPhase (ev : LEvent) : LEvent :=
  { ev with bIsBroadcasting := true }

/-- `LEvent::Trigger` (src/LEvent.h lines 195-216), non-void branch: set the
broadcast flag, invoke every delegate in stored order pushing each result,
clear the flag, return the results. `invoke d` is the value of
`(*D)(InArgs...)` for delegate `d` at the given arguments. -/
def LEvent.Trigger {ρ : Type} (ev : LEvent) (invoke : Delegate → ρ) :
    List ρ × LEvent :=
  let during := ev.TriggerPhase
  (during.Delegates.map invoke, { during with bIsBroadcasting := false })

/-- `LEvent::TriggerComplex` (src/LEvent.h lines 220-241), non-void branch:
like `Trigger` but accumulating into a caller-chosen container via `Adder`,
starting from the default-constructed container `empty`. -/
def LEvent.TriggerComplex {γ ρ : Type} (ev : LEvent) (Adder : γ → ρ → γ)
    (empty : γ) (invoke : Delegate → ρ) : γ × LEvent :=
  let during := ev.TriggerPhase
  (during.Delegates.foldl (fun acc d => Adder acc (invoke d)) empty,
   { during with bIsBroadcasting := false })

/-- Runtime type tag of an event slot: identifies `(ReturnType, Args...)` of
the stored `LEvent` (stands for `typeid(std::shared_ptr<EventType>)`). -/
structure Sig where
  ret : Nat
  args : List Nat
deriving DecidableEq, Repr

/-- One occupied `std::any` slot of the Manager: the stored type tag and the
event state. -/
structure Slot where
  sig : Sig
  ev : LEvent
deriving DecidableEq, Repr

/-- State of `Manager` (src/README.md): the slot array (indexed by the enum
value) and the global block flag. -/
structure Manager where
  Events : Nat → Option Slot
  bEventsBlocked : Bool

/-- `Manager::BlockEvents`. -/
def Manager.BlockEvents (m : Manager) (b : Bool) : Manager :=
  { m with bEventsBlocked := b }

/-- Assignment to one slot of the `Events` array (`Slot = ...`), all other
slots untouched. -/
def Manager.setSlot (m : Manager) (id : Nat) (s : Slot) : Manager :=
  { m with Events := fun j => if j = id then some s else m.Events j }

/-- `Manager::Detail_DeclareEvent::DeclareEvent` (src/README.md lines
91-108): if `CanReplace || !Slot.has_value()`, store a fresh event of the
given signature and return true; otherwise return false, slot untouched. -/
def Manager.DeclareEvent (m : Manager) (id : Nat) (sig : Sig)
    (CanReplace : Bool) : Bool × Manager :=
  if CanReplace || (m.Events id).isNone then
    (true, m.setSlot id { sig := sig, ev := LEvent.new })
  else
    (false, m)

/-- `Manager::TriggerEvent` (src/README.md lines 173-212), non-void branch:
blocked → `EventsBlocked` with default-constructed (empty) results; empty or
type-mismatched slot → `FailedToMatchEventType`; otherwise forward to the
event's `Trigger` and report OK. -/
def Manager.TriggerEvent {ρ : Type} (m : Manager) (id : Nat) (sig : Sig)
    (invoke : Delegate → ρ) : (List ρ × EError) × Manager :=
  if m.bEventsBlocked then (([], EError.EventsBlocked), m)
  else
    match m.Events id with
    | none => (([], EError.FailedToMatchEventType), m)
    | some slot =>
      if slot.sig = sig then
        let r := slot.ev.Trigger invoke
        ((r.1, EError.OK), m.setSlot id { slot with ev := r.2 })
      else
        (([], EError.FailedToMatchEventType), m)

/-- `Manager::TriggerEvent`, void branch (`ReturnType = void`): same checks,
only the error is returned. -/
def Manager.TriggerEventVoid (m : Manager) (id : Nat) (sig : Sig) :
    EError × Manager :=
  if m.bEventsBlocked then (EError.EventsBlocked, m)
  else
    match m.Events id with
    | none => (EError.FailedToMatchEventType, m)
    | some slot =>
      if slot.sig = sig then
        (EError.OK, m.setSlot id { slot with ev := (slot.ev.Trigger (fun _ => ())).2 })
      else
        (EError.FailedToMatchEventType, m)

/-- `Manager::TriggerEventComplex` (src/README.md lines 216-240): blocked →
`EventsBlocked` with the default-constructed container; empty or mismatched
slot → `FailedToMatchEventType`; otherwise forward to `TriggerComplex`. -/
def Manager.TriggerEventComplex {γ ρ : Type} (m : Manager) (id : Nat)
    (sig : Sig) (Adder : γ → ρ → γ) (empty : γ) (invoke : Delegate → ρ) :
    (γ × EError) × Manager :=
  if m.bEventsBlocked then ((empty, EError.EventsBlocked), m)
  else
    match m.Events id with
    | none => ((empty, EError.FailedToMatchEventType), m)
    | some slot =>
      if slot.sig = sig then
        let r := slot.ev.TriggerComplex Adder empty invoke
        ((r.1, EError.OK), m.setSlot id { slot with ev := r.2 })
      else
        ((empty, EError.FailedToMatchEventType), m)

/-- A sequence of `AddListener` calls applied in order: each operation is the
factory-produced delegate together with its `AllowDuplicates` flag. -/
def applyAdds (eq : DelegateEq) (ops : List (Delegate × Bool))
    (ev : LEvent) : LEvent :=
  ops.foldl (fun e op => (e.AddListener eq op.1 op.2).2) ev

/-- The ordering invariant of the delegate sequence: priorities are
non-increasing along the list. -/
def SortedByPriority (l : List Delegate) : Prop :=
  List.Chain' (fun a b => b.Priority ≤ a.Priority) l

theorem insertByPriority_length (d : Delegate) (l : List Delegate) :
    (insertByPriority d l).length = l.length + 1 := by
  induction l with
  | nil => rfl
  | cons x xs ih =>
    simp only [insertByPriority]
    split
    · simp
    · simp [ih]

theorem mem_insertByPriority (d : Delegate) (l : List Delegate) :
    d ∈ insertByPriority d l := by
  induction l with
  | nil => simp [insertByPriority]
  | cons x xs ih =>
    simp only [insertByPriority]
    split
    · exact List.mem_cons_self _ _
    · exact List.mem_cons_of_mem _ ih

theorem insertByPriority_eq_parts (d : Delegate) (l : List Delegate) :
    insertByPriority d l =
      l.takeWhile (fun x => !decide (x.Priority < d.Priority)) ++
        d :: l.dropWhile (fun x => !decide (x.Priority < d.Priority)) := by
  induction l with
  | nil => rfl
  | cons x xs ih =>
    by_cases h : x.Priority < d.Priority
    · simp [insertByPriority, h]
    · simp [insertByPriority, h, ih]

theorem insertByPriority_head_le (d x : Delegate) (l : List Delegate)
    (hx : d.Priority ≤ x.Priority)
    (hl : ∀ y ∈ l.head?, y.Priority ≤ x.Priority) :
    ∀ y ∈ (insertByPriority d l).head?, y.Priority ≤ x.Priority := by
  cases l with
  | nil =>
    intro y hy
    simp only [insertByPriority, List.head?_cons, Option.mem_def,
      Option.some.injEq] at hy
    exact hy ▸ hx
  | cons z zs =>
    intro y hy
    simp only [insertByPriority] at hy
    by_cases h : z.Priority < d.Priority
    · rw [if_pos h] at hy
      simp only [List.head?_cons, Option.mem_def, Option.some.injEq] at hy
      exact hy ▸ hx
    · rw [if_neg h] at hy
      simp only [List.head?_cons, Option.mem_def, Option.some.injEq] at hy
      subst hy
      exact hl z (by simp)

theorem insertByPriority_sorted (d : Delegate) :
    ∀ l : List Delegate, SortedByPriority l →
      SortedByPriority (insertByPriority d l) := by
  intro l
  induction l with
  | nil => intro _; simp [insertByPriority, SortedByPriority]
  | cons x xs ih =>
    intro h
    rw [SortedByPriority, List.chain'_cons'] at h
    simp only [insertByPriority]
    by_cases hcmp : x.Priority < d.Priority
    · rw [if_pos hcmp]
      exact List.chain'_cons'.mpr
        ⟨fun y hy => by
          simp only [List.head?_cons, Option.mem_def, Option.some.injEq] at hy
          exact hy ▸ le_of_lt hcmp,
         List.chain'_cons'.mpr h⟩
    · rw [if_neg hcmp]
      exact List.chain'_cons'.mpr
        ⟨insertByPriority_head_le d x xs (not_lt.mp hcmp) h.1, ih h.2⟩

theorem AddListener_sorted (eq : DelegateEq) (d : Delegate) (b : Bool)
    (ev : LEvent) (h : SortedByPriority ev.Delegates) :
    SortedByPriority ((ev.AddListener eq d b).2).Delegates := by
  simp only [LEvent.AddListener, LEvent.InsertDelegate]
  split
  · exact h
  · split
    · exact h
    · exact insertByPriority_sorted d _ h

theorem applyAdds_sorted_from (eq : DelegateEq)
    (ops : List (Delegate × Bool)) :
    ∀ ev : LEvent, SortedByPriority ev.Delegates →
      SortedByPriority ((applyAdds eq ops ev).Delegates) := by
  induction ops with
  | nil => intro ev h; exact h
  | cons op rest ih =>
    intro ev h
    simp only [applyAdds, List.foldl_cons] at *
    exact ih _ (AddListener_sorted eq op.1 op.2 ev h)

theorem eraseFirstById_not_mem (i : Nat) :
    ∀ l : List Delegate, i ∉ l.map Delegate.ptrId → eraseFirstById i l = l := by
  intro l
  induction l with
  | nil => intro _; rfl
  | cons d ds ih =>
    intro h
    simp only [List.map_cons, List.mem_cons, not_or] at h
    simp only [eraseFirstById, beq_iff_eq]
    rw [if_neg (fun hc => h.1 hc.symm), ih h.2]

theorem Disconnect_fst (c : Connection) (ev : LEvent) :
    (c.Disconnect ev).1 = { c with bActive := false } := by
  simp only [Connection.Disconnect]
  split <;> rfl

theorem Disconnect_inactive (c : Connection) (ev : LEvent)
    (h : c.bActive = false) :
    c.Disconnect ev = ({ c with bActive := false }, ev) := by
  simp [Connection.Disconnect, h]

/-- C1: for every sequence of `AddListener` calls on a fresh `LEvent`, the
stored delegate sequence is sorted by non-increasing priority; each
successful insert goes before the first existing entry of strictly lower
priority (so equal-priority delegates keep insertion order); and `Trigger`
invokes the delegates exactly in the stored order. -/
theorem C1_priority_order_and_trigger (eq : DelegateEq)
    (ops : List (Delegate × Bool)) (ev : LEvent) (d : Delegate)
    {ρ : Type} (invoke : Delegate → ρ) :
    SortedByPriority ((applyAdds eq ops LEvent.new).Delegates) ∧
    (ev.InsertDelegate eq d true).2.Delegates =
      ev.Delegates.takeWhile (fun x => !decide (x.Priority < d.Priority)) ++
        d :: ev.Delegates.dropWhile
          (fun x => !decide (x.Priority < d.Priority)) ∧
    (ev.Trigger invoke).1 = ev.Delegates.map invoke := by
  refine ⟨applyAdds_sorted_from eq ops LEvent.new
    (by simp [LEvent.new, SortedByPriority]), ?_, rfl⟩
  simp [LEvent.InsertDelegate, insertByPriority_eq_parts]

/-- C2: `Trigger` sets the broadcasting flag for the invocation phase,
invokes every delegate currently in the sequence exactly once in stored
order, collects the return values in that same order, and clears the flag
before returning; with zero listeners the result is the empty collection.
The same holds for `TriggerComplex` accumulating through the supplied
adder. -/
theorem C2_trigger_contract {ρ γ : Type} (ev : LEvent)
    (invoke : Delegate → ρ) (Adder : γ → ρ → γ) (empty : γ) :
    (ev.TriggerPhase).IsBroadcasting = true ∧
    (ev.Trigger invoke).1 = ev.Delegates.map invoke ∧
    (ev.Trigger invoke).2.bIsBroadcasting = false ∧
    (ev.Trigger invoke).2.Delegates = ev.Delegates ∧
    (({ ev with Delegates := [] } : LEvent).Trigger invoke).1 = [] ∧
    (ev.TriggerComplex Adder empty invoke).1 =
      ev.Delegates.foldl (fun acc d => Adder acc (invoke d)) empty ∧
    (ev.TriggerComplex Adder empty invoke).2.bIsBroadcasting = false ∧
    (ev.TriggerComplex Adder empty invoke).2.Delegates = ev.Delegates :=
  ⟨rfl, rfl, rfl, rfl, rfl, rfl, rfl, rfl⟩

/-- C3: on a non-broadcasting event with no entry yet equal to the new
delegate, a first `AddListener` grows the sequence by one; a second
`AddListener` with a delegate the factory reports equal and
`AllowDuplicates = false` returns null and leaves the event unchanged,
while with `AllowDuplicates = true` it grows the sequence by one. -/
theorem C3_duplicate_suppression (eq : DelegateEq) (ev : LEvent)
    (d d2 : Delegate) (hb : ev.bIsBroadcasting = false)
    (hnew : ev.Delegates.any (fun x => eq x d) = false)
    (heq : eq d d2 = true) :
    (ev.AddListener eq d false).2.Delegates.length =
      ev.Delegates.length + 1 ∧
    ((ev.AddListener eq d false).2).AddListener eq d2 false =
      (none, (ev.AddListener eq d false).2) ∧
    (((ev.AddListener eq d false).2).AddListener eq d2
        true).2.Delegates.length =
      (ev.AddListener eq d false).2.Delegates.length + 1 := by
  have hev1 : (ev.AddListener eq d false).2 =
      { ev with Delegates := insertByPriority d ev.Delegates } := by
    simp [LEvent.AddListener, LEvent.InsertDelegate, hb, hnew]
  have hany : (insertByPriority d ev.Delegates).any
      (fun x => eq x d2) = true :=
    List.any_eq_true.mpr ⟨d, mem_insertByPriority d _, heq⟩
  refine ⟨?_, ?_, ?_⟩
  · rw [hev1]
    exact insertByPriority_length d _
  · rw [hev1]
    simp [LEvent.AddListener, LEvent.InsertDelegate, hb, hany]
  · rw [hev1]
    simp [LEvent.AddListener, LEvent.InsertDelegate, hb,
      insertByPriority_length]

theorem C3_duplicate_suppression_witness :
    ((LEvent.new.AddListener (fun a b => a.ptrId == b.ptrId)
        ⟨1, 0⟩ false).2).AddListener (fun a b => a.ptrId == b.ptrId)
        ⟨1, 5⟩ false =
      (none, (LEvent.new.AddListener (fun a b => a.ptrId == b.ptrId)
        ⟨1, 0⟩ false).2) :=
  (C3_duplicate_suppression (fun a b => a.ptrId == b.ptrId) LEvent.new
    ⟨1, 0⟩ ⟨1, 5⟩ rfl rfl rfl).2.1

/-- C4: while the broadcasting flag is set, `AddListener` returns null
without mutating the sequence, the pointer-based `RemoveListener` reports
`ModifyingCallbackListDuringBroadcast` without mutating, and the
`Connection`-based `RemoveListener` returns without effect. -/
theorem C4_broadcast_guard (ev : LEvent) (eq : DelegateEq) (d : Delegate)
    (dup : Bool) (c : Connection) (ptrId : Nat)
    (hb : ev.bIsBroadcasting = true) :
    ev.AddListener eq d dup = (none, ev) ∧
    ev.RemoveListenerPtr ptrId =
      (EError.ModifyingCallbackListDuringBroadcast, ev) ∧
    ev.RemoveListenerConn c = ev := by
  refine ⟨?_, ?_, ?_⟩ <;>
    simp [LEvent.AddListener, LEvent.RemoveListenerPtr,
      LEvent.RemoveListenerConn, hb]

theorem C4_broadcast_guard_witness :
    LEvent.AddListener { Delegates := [], bIsBroadcasting := true }
        simpleDelegateEq ⟨0, 0⟩ false =
      (none, { Delegates := [], bIsBroadcasting := true }) :=
  (C4_broadcast_guard { Delegates := [], bIsBroadcasting := true }
    simpleDelegateEq ⟨0, 0⟩ false (Connection.make 0) 0 rfl).1

/-- C5: after `BlockEvents(true)`, every `TriggerEvent`,
`TriggerEvent<void>` and `TriggerEventComplex` call, for any identifier and
any slot contents, returns the `EventsBlocked` error with the
default-constructed result, leaves the manager unchanged and invokes no
listener (the block flag is checked before slot occupancy and signature);
`BlockEvents(false)` clears the flag again. -/
theorem C5_block_events (m : Manager) (id : Nat) (sig : Sig) {ρ γ : Type}
    (invoke : Delegate → ρ) (Adder : γ → ρ → γ) (empty : γ) :
    (m.BlockEvents true).TriggerEvent id sig invoke =
      (([], EError.EventsBlocked), m.BlockEvents true) ∧
    (m.BlockEvents true).TriggerEventVoid id sig =
      (EError.EventsBlocked, m.BlockEvents true) ∧
    (m.BlockEvents true).TriggerEventComplex id sig Adder empty invoke =
      ((empty, EError.EventsBlocked), m.BlockEvents true) ∧
    ((m.BlockEvents true).BlockEvents false).bEventsBlocked = false :=
  ⟨rfl, rfl, rfl, rfl⟩

/-- C6: when events are not blocked and the slot for the identifier is
empty or stores a different signature than the caller requested,
`TriggerEvent` (both branches) and `TriggerEventComplex` return the
`FailedToMatchEventType` error with the default-constructed result, leave
the manager (hence every slot) unchanged and invoke no listener. -/
theorem C6_trigger_type_mismatch (m : Manager) (id : Nat) (sig : Sig)
    {ρ γ : Type} (invoke : Delegate → ρ) (Adder : γ → ρ → γ) (empty : γ)
    (hb : m.bEventsBlocked = false)
    (hslot : m.Events id = none ∨
      ∃ s : Slot, m.Events id = some s ∧ s.sig ≠ sig) :
    m.TriggerEvent id sig invoke =
      (([], EError.FailedToMatchEventType), m) ∧
    m.TriggerEventVoid id sig = (EError.FailedToMatchEventType, m) ∧
    m.TriggerEventComplex id sig Adder empty invoke =
      ((empty, EError.FailedToMatchEventType), m) := by
  rcases hslot with h | ⟨s, hs, hne⟩
  · refine ⟨?_, ?_, ?_⟩ <;>
      simp [Manager.TriggerEvent, Manager.TriggerEventVoid,
        Manager.TriggerEventComplex, hb, h]
  · refine ⟨?_, ?_, ?_⟩ <;>
      simp [Manager.TriggerEvent, Manager.TriggerEventVoid,
        Manager.TriggerEventComplex, hb, hs, hne]

theorem C6_trigger_type_mismatch_witness :
    Manager.TriggerEvent
        { Events := fun _ => none, bEventsBlocked := false } 0 ⟨0, []⟩
        (fun _ => (0 : Nat)) =
      (([], EError.FailedToMatchEventType),
        { Events := fun _ => none, bEventsBlocked := false }) :=
  (C6_trigger_type_mismatch
    { Events := fun _ => none, bEventsBlocked := false } 0 ⟨0, []⟩
    (fun _ => (0 : Nat)) (fun (a : Nat) b => a + b) 0 rfl (Or.inl rfl)).1

/-- C7: `Disconnect` is idempotent and never fails: when the referenced
delegate is no longer in the event's sequence the removal is a silent
no-op that leaves the sequence (hence every other listener) unchanged, the
stored error code is untouched, and any further `Disconnect` through the
now-inactive connection is a no-op on whatever event state it sees. -/
theorem C7_disconnect_idempotent (c : Connection) (ev : LEvent)
    (hb : ev.bIsBroadcasting = false)
    (habs : c.delegateId ∉ ev.Delegates.map Delegate.ptrId) :
    (c.Disconnect ev).2 = ev ∧
    (c.Disconnect ev).1.Error = c.Error ∧
    ∀ ev2 : LEvent, ((c.Disconnect ev).1).Disconnect ev2 =
      ((c.Disconnect ev).1, ev2) := by
  have hrem : ev.RemoveListenerConn c = ev := by
    unfold LEvent.RemoveListenerConn
    rw [if_neg (by simp [hb]), eraseFirstById_not_mem _ _ habs]
  refine ⟨?_, ?_, ?_⟩
  · simp only [Connection.Disconnect]
    split
    · simp [hrem]
    · rfl
  · simp [Disconnect_fst]
  · intro ev2
    rw [Disconnect_fst]
    exact Disconnect_inactive _ _ rfl

theorem C7_disconnect_idempotent_witness :
    (Connection.Disconnect (Connection.make 5)
      { Delegates := [⟨1, 0⟩], bIsBroadcasting := false }).2 =
      { Delegates := [⟨1, 0⟩], bIsBroadcasting := false } :=
  (C7_disconnect_idempotent (Connection.make 5)
    { Delegates := [⟨1, 0⟩], bIsBroadcasting := false } rfl
    (by decide)).1

/-- C8: `DeclareEvent` stores a fresh event of the given signature and
returns true whenever the slot is empty or `CanReplace` is true, leaving
every other slot unchanged; when the slot is occupied and `CanReplace` is
false it returns false and the manager is unchanged. -/
theorem C8_declare_event (m : Manager) (id : Nat) (sig : Sig)
    (CanReplace : Bool) :
    ((m.Events id = none ∨ CanReplace = true) →
      (m.DeclareEvent id sig CanReplace).1 = true ∧
      (m.DeclareEvent id sig CanReplace).2.Events id =
        some { sig := sig, ev := LEvent.new } ∧
      ∀ j : Nat, j ≠ id →
        (m.DeclareEvent id sig CanReplace).2.Events j = m.Events j) ∧
    ((m.Events id).isSome = true → CanReplace = false →
      m.DeclareEvent id sig CanReplace = (false, m)) := by
  constructor
  · intro h
    have hcond : (CanReplace || (m.Events id).isNone) = true := by
      rcases h with h | h
      · simp [h]
      · simp [h]
    refine ⟨?_, ?_, ?_⟩
    · simp [Manager.DeclareEvent, hcond]
    · simp [Manager.DeclareEvent, hcond, Manager.setSlot]
    · intro j hj
      simp [Manager.DeclareEvent, hcond, Manager.setSlot, hj]
  · intro hsome hfalse
    cases h2 : m.Events id with
    | none => rw [h2] at hsome; simp at hsome
    | some s => simp [Manager.DeclareEvent, hfalse, h2]

theorem C8_declare_event_witness :
    (Manager.DeclareEvent
      { Events := fun _ => none, bEventsBlocked := false }
      0 ⟨0, []⟩ false).1 = true :=
  ((C8_declare_event { Events := fun _ => none, bEventsBlocked := false }
    0 ⟨0, []⟩ false).1 (Or.inl rfl)).1

/-- C9: calling `Disconnect` while the event's broadcasting flag is set
skips the removal (the event, its sequence included, is unchanged) yet
unconditionally marks the connection inactive; the delegate therefore
still fires on every later `Trigger` of that event state, and no further
`Disconnect` through the now-inactive connection can remove it from any
event state. -/
theorem C9_disconnect_during_broadcast (c : Connection) (ev : LEvent)
    (hb : ev.bIsBroadcasting = true) :
    c.Disconnect ev = ({ c with bActive := false }, ev) ∧
    (∀ {ρ : Type} (invoke : Delegate → ρ),
      ((c.Disconnect ev).2.Trigger invoke).1 = ev.Delegates.map invoke) ∧
    ∀ ev2 : LEvent,
      (({ c with bActive := false } : Connection).Disconnect ev2) =
        ({ c with bActive := false }, ev2) := by
  have h1 : c.Disconnect ev = ({ c with bActive := false }, ev) := by
    simp only [Connection.Disconnect, LEvent.RemoveListenerConn, hb,
      if_true]
    split <;> rfl
  refine ⟨h1, ?_, ?_⟩
  · intro ρ invoke
    rw [h1]
    rfl
  · intro ev2
    exact Disconnect_inactive _ _ rfl

theorem C9_disconnect_during_broadcast_witness :
    Connection.Disconnect (Connection.make 1)
        { Delegates := [⟨1, 0⟩], bIsBroadcasting := true } =
      ({ Connection.make 1 with bActive := false },
        { Delegates := [⟨1, 0⟩], bIsBroadcasting := true }) :=
  (C9_disconnect_during_broadcast (Connection.make 1)
    { Delegates := [⟨1, 0⟩], bIsBroadcasting := true } rfl).1

/-- C10: moving from an active, error-free connection (move construction
and move assignment copy the same fields) leaves the moved-from source
with a null event reference, so its boolean conversion is false, while its
`bActive` flag and error code are not reset, so `IsActive()` still returns
true; the destination receives the copied flag and error. -/
theorem C10_moved_from_connection (c : Connection) (hact : c.bActive = true)
    (herr : c.Error = EError.OK) (_hev : c.hasEvent = true) :
    (Connection.moveFrom c).2.toBool = false ∧
    (Connection.moveFrom c).2.IsActive = true ∧
    (Connection.moveFrom c).2.bActive = true ∧
    (Connection.moveFrom c).2.Error = EError.OK ∧
    (Connection.moveFrom c).1.bActive = c.bActive ∧
    (Connection.moveFrom c).1.Error = c.Error := by
  simp [Connection.moveFrom, Connection.toBool, Connection.IsActive,
    hact, herr]

theorem C10_moved_from_connection_witness :
    (Connection.moveFrom (Connection.make 1)).2.toBool = false :=
  (C10_moved_from_connection (Connection.make 1) rfl rfl rfl).1

end levent
